import Mathlib

/-!
Verification of the core analysis engine of the RAG context debugger
(`rag_context_debugger/analysis.py`): chunk extraction from a flat
key/value feature map, the lexical semantic-diversity heuristic, and the
health-classification policy of `analyze_retrieved_context`.

Python floats are modelled as exact rationals (`ℚ`), Python ints as `ℤ`/`ℕ`,
and Python exceptions as `Except`.  The feature map (`fv_object.to_dict()`)
is modelled as an association list of key/value pairs in dict iteration
order; keys of a Python dict are distinct.
-/

namespace RagContextDebugger

/-- Python runtime values that can appear in a feature map.  Strings,
numbers (int and float collapsed into `ℚ`), booleans, `None`, and `other`
for any remaining object type (lists, dicts, ...), carrying an opaque tag. -/
inductive Value where
  | str (s : String)
  | num (q : ℚ)
  | bool (b : Bool)
  | null
  | other (tag : String)
deriving DecidableEq

/-- The two exception kinds relevant to `_extract_chunks`: `ValueError`
(raised by `int()` / `float()` on unparsable strings, caught by the
`except (ValueError, IndexError)` clause) and `TypeError` (raised by
`float()` on non-coercible objects, NOT caught by that clause). -/
inductive PyErr where
  | valueError
  | typeError
deriving DecidableEq

/-- Does `needle` match a leading segment of `hay`? (helper for substring). -/
def matchesAt (needle : List Char) : List Char → Bool
  | [] => needle.isEmpty
  | b :: bs =>
    match needle with
    | [] => true
    | a :: as => a == b && matchesAt as bs

/-- Contiguous-substring test on character lists: Python `needle in hay`. -/
def hasSubstr (needle : List Char) : List Char → Bool
  | [] => needle.isEmpty
  | c :: t => matchesAt needle (c :: t) || hasSubstr needle t

/-- Python `needle in hay` on strings. -/
def strContains (hay needle : String) : Bool :=
  hasSubstr needle.toList hay.toList

/-- Python `s.endswith(suf)`. -/
def strEndsWith (s suf : String) : Bool :=
  suf.toList.isSuffixOf s.toList

/-- Python `s.lower()`: lower-case each character (as `String.toLower`,
spelled over the character list). -/
def strToLower (s : String) : String :=
  ⟨s.toList.map Char.toLower⟩

/-- Helper for `splitOnChar`: accumulates the current field (reversed). -/
def splitOnCharAux (sep : Char) : List Char → List Char → List (List Char)
  | [], acc => [acc.reverse]
  | c :: cs, acc =>
    if c == sep then acc.reverse :: splitOnCharAux sep cs []
    else splitOnCharAux sep cs (c :: acc)

/-- Python `s.split(sep)` for a one-character separator: keeps empty fields,
`"" .split(sep) == [""]`. -/
def splitOnChar (sep : Char) (s : String) : List String :=
  (splitOnCharAux sep s.toList []).map (fun l => ⟨l⟩)

/-- Helper for `pySplitWs`: accumulates the current word (reversed). -/
def pySplitWsAux : List Char → List Char → List (List Char)
  | [], acc => if acc.isEmpty then [] else [acc.reverse]
  | c :: cs, acc =>
    if c.isWhitespace then
      if acc.isEmpty then pySplitWsAux cs []
      else acc.reverse :: pySplitWsAux cs []
    else pySplitWsAux cs (c :: acc)

/-- Python `s.split()` with no argument: splits on runs of whitespace and
never yields empty words. -/
def pySplitWs (s : String) : List String :=
  (pySplitWsAux s.toList []).map (fun l => ⟨l⟩)

/-- Numeric value of a list of decimal digit characters. -/
def digitsToNat (cs : List Char) : ℕ :=
  cs.foldl (fun n c => 10 * n + (c.toNat - 48)) 0

/-- Python `int(s)` on a string: optional sign followed by one or more
digits; anything else raises `ValueError` (modelled as `none`).
(Abstraction: surrounding whitespace and digit-group underscores, which
cannot occur in the extractor because the argument is a field of an
underscore-split, are not accepted.) -/
def parseInt (s : String) : Option ℤ :=
  match s.toList with
  | [] => none
  | c :: r =>
    if c == ('-') then
      if !r.isEmpty && r.all Char.isDigit then some (-(digitsToNat r : ℤ)) else none
    else if c == ('+') then
      if !r.isEmpty && r.all Char.isDigit then some ((digitsToNat r : ℤ)) else none
    else if (c :: r).all Char.isDigit then some ((digitsToNat (c :: r) : ℤ)) else none

/-- Python `float(s)` on a string: optional sign, then digits with an
optional fractional part (`"1."`, `".5"` accepted, `"."` and `"1.2.3"`
rejected).  Failure models `ValueError`.  (Abstraction: exponent forms,
`inf`/`nan` and surrounding whitespace are rejected; no claim depends on
which strings parse.) -/
def parseFloat (s : String) : Option ℚ :=
  let signAndRest : ℚ × List Char :=
    match s.toList with
    | [] => (1, [])
    | c :: r =>
      if c == ('-') then (-1, r) else if c == ('+') then (1, r) else (1, c :: r)
  let sign := signAndRest.1
  let rest := signAndRest.2
  let intPart := rest.takeWhile (fun c => !(c == ('.')))
  match rest.drop intPart.length with
  | [] =>
    if !intPart.isEmpty && intPart.all Char.isDigit then
      some (sign * (digitsToNat intPart : ℚ))
    else none
  | _ :: frac =>
    if (!intPart.isEmpty || !frac.isEmpty) && intPart.all Char.isDigit
        && frac.all Char.isDigit then
      some (sign * ((digitsToNat intPart : ℚ) + (digitsToNat frac : ℚ) / ((10 : ℚ) ^ frac.length)))
    else none

/-- Python `str(value)`.  Total: `str` raises on none of these values.
(Abstraction: the rendering of numbers uses Lean notation for rationals
instead of Python float repr; no claim depends on the rendering, and for
`other` values the opaque tag stands in for the object repr.) -/
def pyStr : Value → String
  | .str s => s
  | .num q => toString q
  | .bool b => if b then ("True") else ("False")
  | .null => ("None")
  | .other tag => tag

/-- Python `float(value)`: numbers pass through, booleans become 0/1,
strings are parsed (`ValueError` on failure), `None` and any other object
raise `TypeError`. -/
def pyFloat : Value → Except PyErr ℚ
  | .num q => .ok q
  | .bool b => .ok (if b then 1 else 0)
  | .str s =>
    match parseFloat s with
    | some q => .ok q
    | none => .error .valueError
  | .null => .error .typeError
  | .other _ => .error .typeError

/-- The working record built per ordinal by `_extract_chunks`
(the inner `Dict[str, Any]` holding the optional `text`/`score` fields). -/
structure PartialChunk where
  text : Option String := none
  score : Option ℚ := none
deriving DecidableEq

/-- The `chunks: Dict[int, Dict[str, Any]]` working dict, as an association
list in insertion order with distinct keys. -/
abbrev ChunkMap := List (ℤ × PartialChunk)

/-- Dict lookup `chunks.get(k)`. -/
def mapLookup (m : ChunkMap) (k : ℤ) : Option PartialChunk :=
  (m.find? (fun kv => kv.1 == k)).map Prod.snd

/-- Dict lookup with the empty record as default. -/
def mapGetD (m : ChunkMap) (k : ℤ) : PartialChunk :=
  (mapLookup m k).getD {}

/-- Dict assignment `chunks[k] = v`: updates in place if the key is
present, appends otherwise (Python dicts keep insertion order). -/
def mapSet : ChunkMap → ℤ → PartialChunk → ChunkMap
  | [], k, v => [(k, v)]
  | (k2, v2) :: rest, k, v =>
    if k2 == k then (k2, v) :: rest else (k2, v2) :: mapSet rest k v

/-- One iteration of the key/value loop of `_extract_chunks`
(analysis.py lines 32-62): filter keys mentioning chunk and text/score,
normalize dot notation, split on underscores, parse the ordinal, ensure
the per-ordinal record exists, then assign the text (via `str`) or score
(via `float`) field for non-null values.  `ValueError` from `int`/`float`
is caught by the `except (ValueError, IndexError)` clause (the key is
skipped, mutations already made persist); `TypeError` from `float` is not
caught and propagates. -/
def stepKey (chunks : ChunkMap) (key : String) (value : Value) : Except PyErr ChunkMap :=
  if strContains key ("chunk") && (strContains key ("text") || strContains key ("score")) then
    let chunk_part :=
      if key.toList.contains ('.') then
        let parts := splitOnChar ('.') key
        if parts.length > 1 then parts.getD 1 key else key
      else key
    let chunk_parts := splitOnChar ('_') chunk_part
    if chunk_parts.length ≥ 2 && (chunk_parts.getD 0 ("") == ("chunk")) then
      match parseInt (chunk_parts.getD 1 ("")) with
      | none => Except.ok chunks
      | some chunk_num =>
        let chunks1 :=
          if (mapLookup chunks chunk_num).isNone then mapSet chunks chunk_num {} else chunks
        if strEndsWith key ("_text") then
          if value ≠ Value.null then
            Except.ok (mapSet chunks1 chunk_num
              { mapGetD chunks1 chunk_num with text := some (pyStr value) })
          else Except.ok chunks1
        else if strEndsWith key ("_score") then
          if value ≠ Value.null then
            match pyFloat value with
            | Except.ok q =>
              Except.ok (mapSet chunks1 chunk_num
                { mapGetD chunks1 chunk_num with score := some q })
            | Except.error PyErr.valueError => Except.ok chunks1
            | Except.error PyErr.typeError => Except.error PyErr.typeError
          else Except.ok chunks1
        else Except.ok chunks1
    else Except.ok chunks
  else Except.ok chunks

/-- The full key/value scan of `_extract_chunks`, folding `stepKey` over
the feature map items; an uncaught exception aborts the loop. -/
def buildChunks (features : List (String × Value)) : Except PyErr ChunkMap :=
  features.foldlM (fun m kv => stepKey m kv.1 kv.2) []

/-- Order on working-dict items by ordinal, as used by
`sorted(chunks.items())` (keys are distinct, so the tuple comparison is
decided by the ordinal). -/
def keyLE (a b : ℤ × PartialChunk) : Prop := a.1 ≤ b.1

instance : DecidableRel keyLE := fun a b => inferInstanceAs (Decidable (a.1 ≤ b.1))

instance : IsTotal (ℤ × PartialChunk) keyLE := ⟨fun a b => le_total a.1 b.1⟩

instance : IsTrans (ℤ × PartialChunk) keyLE := ⟨fun _ _ _ h1 h2 => le_trans h1 h2⟩

/-- Python `sorted(chunks.items())`. -/
def sortByKey (m : ChunkMap) : ChunkMap :=
  List.insertionSort keyLE m

/-- An extracted chunk: `{"text": ..., "score": ...}`. -/
structure RetrievedChunk where
  text : String
  score : ℚ
deriving DecidableEq

/-- The final filter of `_extract_chunks`: emit a chunk only when both
fields are populated. -/
def completeChunk (kd : ℤ × PartialChunk) : Option RetrievedChunk :=
  match kd.2.text, kd.2.score with
  | some t, some s => some { text := t, score := s }
  | _, _ => none

/-- `_extract_chunks` (analysis.py lines 27-71): scan all keys, sort the
working dict by ordinal, and keep only complete records. -/
def _extract_chunks (features : List (String × Value)) : Except PyErr (List RetrievedChunk) := do
  let chunks ← buildChunks features
  pure ((sortByKey chunks).filterMap completeChunk)

/-- Python `text.lower().split()`: the word list of one text. -/
def chunkWords (t : String) : List String :=
  pySplitWs (strToLower t)

/-- The set of distinct words of one text (`set(words)`). -/
def wordSet (t : String) : Finset String :=
  (chunkWords t).toFinset

/-- Accumulated `total_words` of `_calculate_semantic_diversity`:
word count over all texts, duplicates counted. -/
def totalWords (texts : List String) : ℕ :=
  (texts.map (fun t => (chunkWords t).length)).sum

/-- Accumulated `all_words`: union of the word sets of all texts. -/
def allWords (texts : List String) : Finset String :=
  texts.foldl (fun s t => s ∪ wordSet t) ∅

/-- The containment test of the pairwise loop:
`text.lower() in other_text.lower() or other_text.lower() in text.lower()`. -/
def containsEither (t o : String) : Bool :=
  strContains (strToLower o) (strToLower t) || strContains (strToLower t) (strToLower o)

/-- The word-overlap contribution of one pair: Jaccard similarity of the
word sets, 0 when the union is empty (the `total_unique > 0` guard). -/
def jaccard (t o : String) : ℚ :=
  let overlap := ((wordSet t) ∩ (wordSet o)).card
  let totalUnique := ((wordSet t) ∪ (wordSet o)).card
  if 0 < totalUnique then (overlap : ℚ) / (totalUnique : ℚ) else 0

/-- Accumulated `repeated_phrases`: the nested loop
`for text in texts: for other_text in texts: if text != other_text:`
counting containment hits.  Note the guard compares the two STRINGS, so a
pair of equal texts at different positions is skipped. -/
def repeatedPhrases (texts : List String) : ℕ :=
  (texts.map (fun t =>
    ((texts.filter (fun o => t != o)).filter (fun o => containsEither t o)).length)).sum

/-- Accumulated `phrase_similarity_score` before normalization: the same
nested value-guarded loop summing Jaccard overlaps. -/
def phraseSimilarityTotal (texts : List String) : ℚ :=
  (texts.map (fun t =>
    ((texts.filter (fun o => t != o)).map (fun o => jaccard t o)).sum)).sum

/-- `_calculate_semantic_diversity` (analysis.py lines 73-120). -/
def _calculate_semantic_diversity (texts : List String) : ℚ :=
  if texts.length < 2 then 1
  else
    let word_diversity : ℚ := ((allWords texts).card : ℚ) / ((max (totalWords texts) 1 : ℕ) : ℚ)
    let max_possible : ℕ := texts.length * (texts.length - 1)
    let phrase_diversity : ℚ :=
      if 0 < max_possible then max 0 (1 - phraseSimilarityTotal texts / (max_possible : ℚ))
      else 1
    let phrase_penalty : ℚ :=
      max 0 ((repeatedPhrases texts : ℚ) / ((max max_possible 1 : ℕ) : ℚ))
    word_diversity * 0.3 + (phrase_diversity * (1 - phrase_penalty)) * 0.7

/-- The health report dictionary. -/
structure ContextHealthReport where
  status : String
  message : String
  chunk_count : ℕ
  avg_relevance_score : ℚ
  semantic_diversity_score : ℚ
deriving DecidableEq

/-- The `AnalysisResult` dictionary.  `generated_answer` and
`answer_confidence` are `Option`s because the null-input branch omits
them (the TypedDict is `total=False`). -/
structure AnalysisResult where
  retrieved_chunks : List RetrievedChunk
  health_report : ContextHealthReport
  error : Option String
  generated_answer : Option Value := none
  answer_confidence : Option Value := none
deriving DecidableEq

instance {ε α : Type} [DecidableEq ε] [DecidableEq α] : DecidableEq (Except ε α) := fun x y =>
  match x, y with
  | .ok a, .ok b =>
    if h : a = b then isTrue (by rw [h]) else isFalse (fun hh => h (Except.ok.inj hh))
  | .error a, .error b =>
    if h : a = b then isTrue (by rw [h]) else isFalse (fun hh => h (Except.error.inj hh))
  | .ok _, .error _ => isFalse (fun hh => Except.noConfusion hh)
  | .error _, .ok _ => isFalse (fun hh => Except.noConfusion hh)

/-- `avg_score = sum(scores) / chunk_count` where
`scores = [chunk["score"] for chunk in chunks]`. -/
def avgScore (chunks : List RetrievedChunk) : ℚ :=
  (chunks.map RetrievedChunk.score).sum / (chunks.length : ℚ)

/-- Python `features.get(k)`: `none` when the key is missing. -/
def featuresGet (features : List (String × Value)) (k : String) : Option Value :=
  (features.find? (fun kv => kv.1 == k)).map Prod.snd

/-- The `x if x is not None else dflt` pattern applied to a
`features.get` result: the default is used when the key is missing or its
stored value is `None`. -/
def confDefault (v : Option Value) (dflt : Value) : Value :=
  match v with
  | some w => if w = Value.null then dflt else w
  | none => dflt

/-- The status/message decision chain of `analyze_retrieved_context`
(analysis.py lines 177-191): relevance thresholds first, then the
diversity check unless already CRITICAL. -/
def healthStatus (avg_score diversity_score : ℚ) : String × String :=
  let sm : String × String :=
    if avg_score < 0.60 then
      (("CRITICAL"),
       ("BAD: The chunks don\x27t answer the user\x27s question well. They\x27re off-topic."))
    else if avg_score < 0.75 then
      (("WARNING"),
       ("WARNING: The chunks only kinda answer the user\x27s question. They\x27re not very helpful."))
    else
      (("HEALTHY"),
       ("GOOD: The chunks answer the user\x27s question well and provide different useful information."))
  if diversity_score < 0.80 ∧ sm.1 ≠ ("CRITICAL") then
    (("WARNING"),
     ("WARNING: The chunks are too similar to each other. They\x27re basically saying the same thing."))
  else sm

/-- `analyze_retrieved_context` (analysis.py lines 122-207). -/
def analyze_retrieved_context (fv_object : Option (List (String × Value))) :
    Except PyErr AnalysisResult :=
  match fv_object with
  | none =>
    Except.ok
      { retrieved_chunks := []
        health_report :=
          { status := ("CRITICAL")
            message := ("Received null feature vector.")
            chunk_count := 0
            avg_relevance_score := 0
            semantic_diversity_score := 0 }
        error := some ("Received null feature vector.") }
  | some features => do
    let chunks ← _extract_chunks features
    let chunk_count := chunks.length
    let generated_answer := (featuresGet features ("retrieved_context.answer")).getD (Value.str (""))
    let answer_confidence := featuresGet features ("retrieved_context.answer_confidence")
    if chunk_count = 0 then
      pure
        { retrieved_chunks := []
          health_report :=
            { status := ("CRITICAL")
              message := ("No context chunks retrieved.")
              chunk_count := 0
              avg_relevance_score := 0
              semantic_diversity_score := 0 }
          error := none
          generated_answer := some generated_answer
          answer_confidence := some (confDefault answer_confidence (Value.num 0)) }
    else
      let texts := chunks.map RetrievedChunk.text
      let avg_score := avgScore chunks
      let diversity_score := _calculate_semantic_diversity texts
      let sm := healthStatus avg_score diversity_score
      pure
        { retrieved_chunks := chunks
          health_report :=
            { status := sm.1
              message := sm.2
              chunk_count := chunk_count
              avg_relevance_score := avg_score
              semantic_diversity_score := diversity_score }
          error := none
          generated_answer := some generated_answer
          answer_confidence := some (confDefault answer_confidence (Value.num avg_score)) }

/-- Modelled from the spec sentence of claim C2: the repeated-phrase count
accumulated over all ordered pairs of POSITIONS `(i, j)` with `i ≠ j`,
equal-string pairs included.  (Comparison model; the code guards on string
inequality instead.) -/
def claimPairRepeated (texts : List String) : ℕ :=
  ((List.finRange texts.length).map (fun i =>
    (((List.finRange texts.length).filter (fun j => i != j)).filter
      (fun j => containsEither (texts.get i) (texts.get j))).length)).sum

/-- Modelled from the spec sentence of claim C2: the Jaccard similarity
total accumulated over all ordered pairs of positions `(i, j)` with
`i ≠ j`, equal-string pairs included.  (Comparison model.) -/
def claimPairSimilarity (texts : List String) : ℚ :=
  ((List.finRange texts.length).map (fun i =>
    (((List.finRange texts.length).filter (fun j => i != j)).map
      (fun j => jaccard (texts.get i) (texts.get j))).sum)).sum

/-- The diversity score as claim C2 words it: position-pair accumulation
(equal-string pairs included) with the code's normalization by
`n*(n-1)`.  (Comparison model.) -/
def claimPairwiseDiversity (texts : List String) : ℚ :=
  if texts.length < 2 then 1
  else
    let word_diversity : ℚ := ((allWords texts).card : ℚ) / ((max (totalWords texts) 1 : ℕ) : ℚ)
    let max_possible : ℕ := texts.length * (texts.length - 1)
    let phrase_diversity : ℚ :=
      if 0 < max_possible then max 0 (1 - claimPairSimilarity texts / (max_possible : ℚ))
      else 1
    let phrase_penalty : ℚ :=
      max 0 ((claimPairRepeated texts : ℚ) / ((max max_possible 1 : ℕ) : ℚ))
    word_diversity * 0.3 + (phrase_diversity * (1 - phrase_penalty)) * 0.7

/-- Position-pair form of the repeated-phrase count with the code's actual
guard: only pairs whose two texts DIFFER as strings are counted. -/
def posPairRepeated (texts : List String) : ℕ :=
  ((List.finRange texts.length).map (fun i =>
    (((List.finRange texts.length).filter (fun j => texts.get i != texts.get j)).filter
      (fun j => containsEither (texts.get i) (texts.get j))).length)).sum

/-- Position-pair form of the Jaccard similarity total with the code's
actual string-inequality guard. -/
def posPairSimilarity (texts : List String) : ℚ :=
  ((List.finRange texts.length).map (fun i =>
    (((List.finRange texts.length).filter (fun j => texts.get i != texts.get j)).map
      (fun j => jaccard (texts.get i) (texts.get j))).sum)).sum

/-- The diversity score rephrased over position pairs with the
string-inequality guard (the amended form of claim C2). -/
def valueGuardedPairDiversity (texts : List String) : ℚ :=
  if texts.length < 2 then 1
  else
    let word_diversity : ℚ := ((allWords texts).card : ℚ) / ((max (totalWords texts) 1 : ℕ) : ℚ)
    let max_possible : ℕ := texts.length * (texts.length - 1)
    let phrase_diversity : ℚ :=
      if 0 < max_possible then max 0 (1 - posPairSimilarity texts / (max_possible : ℚ))
      else 1
    let phrase_penalty : ℚ :=
      max 0 ((posPairRepeated texts : ℚ) / ((max max_possible 1 : ℕ) : ℚ))
    word_diversity * 0.3 + (phrase_diversity * (1 - phrase_penalty)) * 0.7

/-- The value types of the spec data model (string, number, boolean,
null), i.e. everything except `other` objects such as lists and dicts. -/
def wellTypedValue : Value → Bool
  | .other _ => false
  | _ => true

/-- Concrete chunk used by the decision-table witness. -/
def wChunk1 : RetrievedChunk := { text := ("alpha"), score := 1 }

/-- The analysis result produced for the one-chunk witness feature map
(fields spelled with the same expressions the analyzer builds, so the
equation holds definitionally). -/
def wRes1 : AnalysisResult :=
  { retrieved_chunks := [wChunk1]
    health_report :=
      { status :=
          (healthStatus (avgScore [wChunk1]) (_calculate_semantic_diversity [wChunk1.text])).1
        message :=
          (healthStatus (avgScore [wChunk1]) (_calculate_semantic_diversity [wChunk1.text])).2
        chunk_count := 1
        avg_relevance_score := avgScore [wChunk1]
        semantic_diversity_score := _calculate_semantic_diversity [wChunk1.text] }
    error := none
    generated_answer := some (Value.str (""))
    answer_confidence := some (Value.num (avgScore [wChunk1])) }

/-- Chunks extracted from the two-chunk, reverse-ordinal witness map. -/
def wChunkA : RetrievedChunk := { text := ("first"), score := 1 }

/-- Second chunk of the two-chunk witness map (higher ordinal, higher score). -/
def wChunkB : RetrievedChunk := { text := ("second"), score := 2 }

/-- The analysis result for the two-chunk witness map. -/
def wRes9 : AnalysisResult :=
  { retrieved_chunks := [wChunkA, wChunkB]
    health_report :=
      { status :=
          (healthStatus (avgScore [wChunkA, wChunkB])
            (_calculate_semantic_diversity [wChunkA.text, wChunkB.text])).1
        message :=
          (healthStatus (avgScore [wChunkA, wChunkB])
            (_calculate_semantic_diversity [wChunkA.text, wChunkB.text])).2
        chunk_count := 2
        avg_relevance_score := avgScore [wChunkA, wChunkB]
        semantic_diversity_score := _calculate_semantic_diversity [wChunkA.text, wChunkB.text] }
    error := none
    generated_answer := some (Value.str (""))
    answer_confidence := some (Value.num (avgScore [wChunkA, wChunkB])) }

/-- Round a positive rational to the nearest IEEE-754 binary64 value,
ties to even: scale into the 53-bit significand range
`[2^52, 2^53)`, round the significand, and scale back.  Valid on the
normal range; this program's diversity path only produces values there
(no subnormals, overflow, infinities or NaNs arise). -/
def roundPos (a : ℚ) : ℚ :=
  let k : ℤ := Int.log 2 a - 52
  let scaled : ℚ := a * (2:ℚ) ^ (-k)
  let fl : ℤ := ⌊scaled⌋
  let frac : ℚ := scaled - (fl : ℚ)
  let m : ℤ :=
    if frac < 1/2 then fl
    else if 1/2 < frac then fl + 1
    else if fl % 2 = 0 then fl else fl + 1
  (m : ℚ) * (2:ℚ) ^ k

/-- Round a rational to the nearest IEEE-754 binary64 value (ties to
even), the result represented exactly as a rational. -/
def roundDouble (q : ℚ) : ℚ :=
  if q = 0 then 0
  else if q < 0 then -roundPos (-q) else roundPos q

/-- Double addition: exact sum, then rounding. -/
def fadd (x y : ℚ) : ℚ := roundDouble (x + y)

/-- Double subtraction: exact difference, then rounding. -/
def fsub (x y : ℚ) : ℚ := roundDouble (x - y)

/-- Double multiplication: exact product, then rounding. -/
def fmul (x y : ℚ) : ℚ := roundDouble (x * y)

/-- Double division: exact quotient, then rounding. -/
def fdiv (x y : ℚ) : ℚ := roundDouble (x / y)

/-- The `phrase_similarity_score` accumulation of
`_calculate_semantic_diversity` under IEEE-754 double semantics: the
same value-guarded nested loop in program order, each Jaccard quotient a
double division and each `+=` a double addition (ints are exact; the
accumulator only becomes a float once a similarity is added, and 0 is
exactly representable). -/
def phraseSimilarityTotal_f64 (texts : List String) : ℚ :=
  texts.foldl (fun acc t =>
    (texts.filter (fun o => t != o)).foldl (fun acc2 o =>
      let totalUnique := ((wordSet t) ∪ (wordSet o)).card
      if 0 < totalUnique then
        fadd acc2 (fdiv ((((wordSet t) ∩ (wordSet o)).card : ℕ) : ℚ) ((totalUnique : ℕ) : ℚ))
      else acc2) acc) 0

/-- `_calculate_semantic_diversity` (analysis.py lines 73-120) under
IEEE-754 double semantics: the same computation as
`_calculate_semantic_diversity`, with every float operation rounded to
binary64 and the float literals `0.3`, `0.7` denoting their double
roundings.  Integer quantities (word counts, the pair counts, `len`)
are exact; Python `max` compares values exactly. -/
def _calculate_semantic_diversity_f64 (texts : List String) : ℚ :=
  if texts.length < 2 then 1
  else
    let word_diversity : ℚ :=
      fdiv ((allWords texts).card : ℚ) ((max (totalWords texts) 1 : ℕ) : ℚ)
    let max_possible : ℕ := texts.length * (texts.length - 1)
    let phrase_diversity : ℚ :=
      if 0 < max_possible then
        max 0 (fsub 1 (fdiv (phraseSimilarityTotal_f64 texts) (max_possible : ℚ)))
      else 1
    let phrase_penalty : ℚ :=
      max 0 (fdiv (repeatedPhrases texts : ℚ) ((max max_possible 1 : ℕ) : ℚ))
    fadd (fmul word_diversity (roundDouble 0.3))
      (fmul (fmul phrase_diversity (fsub 1 phrase_penalty)) (roundDouble 0.7))

/-! ## Helper lemmas -/

/-- Internal form of the fewer-than-two-texts special case. -/
theorem diversity_lt_two (texts : List String) (h : texts.length < 2) :
    _calculate_semantic_diversity texts = 1 := by
  unfold _calculate_semantic_diversity
  rw [if_pos h]

/-- An uncaught extraction exception propagates out of the analyzer. -/
theorem analyze_some_error (features : List (String × Value)) (e : PyErr)
    (hx : _extract_chunks features = Except.error e) :
    analyze_retrieved_context (some features) = Except.error e := by
  simp only [analyze_retrieved_context, hx]
  rfl

/-- The zero-chunk branch of the analyzer, as an equation. -/
theorem analyze_some_empty (features : List (String × Value))
    (hx : _extract_chunks features = Except.ok []) :
    analyze_retrieved_context (some features) = Except.ok
      { retrieved_chunks := []
        health_report :=
          { status := ("CRITICAL")
            message := ("No context chunks retrieved.")
            chunk_count := 0
            avg_relevance_score := 0
            semantic_diversity_score := 0 }
        error := none
        generated_answer :=
          some ((featuresGet features ("retrieved_context.answer")).getD (Value.str ("")))
        answer_confidence :=
          some (confDefault (featuresGet features ("retrieved_context.answer_confidence"))
            (Value.num 0)) } := by
  simp only [analyze_retrieved_context, hx]
  rfl

/-- The normal branch of the analyzer, as an equation. -/
theorem analyze_some_nonempty (features : List (String × Value)) (l : List RetrievedChunk)
    (hl : _extract_chunks features = Except.ok l) (hne : l ≠ []) :
    analyze_retrieved_context (some features) = Except.ok
      { retrieved_chunks := l
        health_report :=
          { status :=
              (healthStatus (avgScore l)
                (_calculate_semantic_diversity (l.map RetrievedChunk.text))).1
            message :=
              (healthStatus (avgScore l)
                (_calculate_semantic_diversity (l.map RetrievedChunk.text))).2
            chunk_count := l.length
            avg_relevance_score := avgScore l
            semantic_diversity_score :=
              _calculate_semantic_diversity (l.map RetrievedChunk.text) }
        error := none
        generated_answer :=
          some ((featuresGet features ("retrieved_context.answer")).getD (Value.str ("")))
        answer_confidence :=
          some (confDefault (featuresGet features ("retrieved_context.answer_confidence"))
            (Value.num (avgScore l))) } := by
  have hlen : l.length ≠ 0 := fun h => hne (List.length_eq_zero.mp h)
  simp only [analyze_retrieved_context, hl, Except.bind, bind]
  rw [if_neg hlen]
  rfl

/-- Characterization of the status produced by the decision chain. -/
theorem healthStatus_fst_spec (a d : ℚ) :
    ((healthStatus a d).1 = ("CRITICAL") ↔ a < 0.60) ∧
    ((healthStatus a d).1 = ("WARNING") ↔
      ((0.60 ≤ a ∧ a < 0.75) ∨ (0.75 ≤ a ∧ d < 0.80))) ∧
    ((healthStatus a d).1 = ("HEALTHY") ↔ (0.75 ≤ a ∧ 0.80 ≤ d)) := by
  simp only [healthStatus]
  by_cases h1 : a < 0.60
  · rw [if_pos h1, if_neg (fun hc => hc.2 rfl)]
    refine ⟨iff_of_true rfl h1, iff_of_false (by decide) ?_, iff_of_false (by decide) ?_⟩
    · rintro (⟨h60, _⟩ | ⟨h75, _⟩) <;> linarith
    · rintro ⟨h75, _⟩; linarith
  · by_cases h2 : a < 0.75
    · rw [if_neg h1, if_pos h2]
      by_cases h3 : d < 0.80
      · rw [if_pos ⟨h3, by decide⟩]
        refine ⟨iff_of_false (by decide) h1,
          iff_of_true rfl (Or.inl ⟨le_of_not_lt h1, h2⟩),
          iff_of_false (by decide) ?_⟩
        rintro ⟨h75, _⟩; linarith
      · rw [if_neg (fun hc => h3 hc.1)]
        refine ⟨iff_of_false (by decide) h1,
          iff_of_true rfl (Or.inl ⟨le_of_not_lt h1, h2⟩),
          iff_of_false (by decide) ?_⟩
        rintro ⟨h75, _⟩; linarith
    · rw [if_neg h1, if_neg h2]
      by_cases h3 : d < 0.80
      · rw [if_pos ⟨h3, by decide⟩]
        refine ⟨iff_of_false (by decide) h1,
          iff_of_true rfl (Or.inr ⟨le_of_not_lt h2, h3⟩),
          iff_of_false (by decide) ?_⟩
        rintro ⟨_, h80⟩; linarith
      · rw [if_neg (fun hc => h3 hc.1)]
        refine ⟨iff_of_false (by decide) h1, iff_of_false (by decide) ?_,
          iff_of_true rfl ⟨le_of_not_lt h2, le_of_not_lt h3⟩⟩
        rintro (⟨_, h75⟩ | ⟨_, hd⟩) <;> linarith

/-! ## Claim theorems -/

/-- C5: when the feature source passed to analyze is null, the result has
status CRITICAL, chunk_count 0, avg_relevance_score 0.0,
semantic_diversity_score 0.0, an empty chunks list, and a non-null error
string (the answer-surface fields are absent), and this branch returns
before any extraction is attempted. -/
theorem null_feature_source_result :
    analyze_retrieved_context none = Except.ok
      { retrieved_chunks := []
        health_report :=
          { status := ("CRITICAL")
            message := ("Received null feature vector.")
            chunk_count := 0
            avg_relevance_score := 0
            semantic_diversity_score := 0 }
        error := some ("Received null feature vector.")
        generated_answer := none
        answer_confidence := none } := rfl

/-- C7: for every list of texts with fewer than 2 elements, the semantic
diversity function returns exactly 1.0. -/
theorem diversity_of_fewer_than_two_texts (texts : List String) (h : texts.length < 2) :
    _calculate_semantic_diversity texts = 1 :=
  diversity_lt_two texts h

/-- Witness for C7 at the empty list. -/
theorem diversity_of_fewer_than_two_texts_witness :
    (([] : List String).length < 2) ∧ _calculate_semantic_diversity [] = 1 :=
  ⟨by decide, diversity_of_fewer_than_two_texts [] (by decide)⟩

/-- C6: when the feature source is non-null but extraction yields zero
chunks, analyze returns status CRITICAL with the no-context message,
chunk_count 0, zeroed metrics, and error null (unlike the null-input
case), while still surfacing generated_answer and answer_confidence read
from the feature map. -/
theorem zero_chunks_valid_empty_result (features : List (String × Value))
    (hx : _extract_chunks features = Except.ok []) :
    analyze_retrieved_context (some features) = Except.ok
      { retrieved_chunks := []
        health_report :=
          { status := ("CRITICAL")
            message := ("No context chunks retrieved.")
            chunk_count := 0
            avg_relevance_score := 0
            semantic_diversity_score := 0 }
        error := none
        generated_answer :=
          some ((featuresGet features ("retrieved_context.answer")).getD (Value.str ("")))
        answer_confidence :=
          some (confDefault (featuresGet features ("retrieved_context.answer_confidence"))
            (Value.num 0)) } :=
  analyze_some_empty features hx

/-- Witness for C6: a map with answer-surface fields and no chunk keys. -/
theorem zero_chunks_valid_empty_result_witness :
    _extract_chunks [(("retrieved_context.answer"), Value.str ("hello")),
        (("retrieved_context.answer_confidence"), Value.num 1)] = Except.ok [] ∧
    analyze_retrieved_context (some [(("retrieved_context.answer"), Value.str ("hello")),
        (("retrieved_context.answer_confidence"), Value.num 1)]) = Except.ok
      { retrieved_chunks := []
        health_report :=
          { status := ("CRITICAL")
            message := ("No context chunks retrieved.")
            chunk_count := 0
            avg_relevance_score := 0
            semantic_diversity_score := 0 }
        error := none
        generated_answer := some (Value.str ("hello"))
        answer_confidence := some (Value.num 1) } :=
  ⟨by decide, zero_chunks_valid_empty_result _ (by decide)⟩

/-- C1: for every analysis run with at least one extracted chunk, the
health status is determined exactly by the decision table: CRITICAL iff
avg < 0.60; WARNING iff 0.60 <= avg < 0.75 or (avg >= 0.75 and
diversity < 0.80); HEALTHY iff avg >= 0.75 and diversity >= 0.80.
CRITICAL from relevance is never changed by the diversity check and no
input reaches CRITICAL through diversity alone. -/
theorem health_status_decision_table (features : List (String × Value)) (r : AnalysisResult)
    (hok : analyze_retrieved_context (some features) = Except.ok r)
    (hne : r.retrieved_chunks ≠ []) :
    (r.health_report.status = ("CRITICAL") ↔ r.health_report.avg_relevance_score < 0.60) ∧
    (r.health_report.status = ("WARNING") ↔
      ((0.60 ≤ r.health_report.avg_relevance_score ∧
          r.health_report.avg_relevance_score < 0.75) ∨
        (0.75 ≤ r.health_report.avg_relevance_score ∧
          r.health_report.semantic_diversity_score < 0.80))) ∧
    (r.health_report.status = ("HEALTHY") ↔
      (0.75 ≤ r.health_report.avg_relevance_score ∧
        0.80 ≤ r.health_report.semantic_diversity_score)) := by
  cases hx : _extract_chunks features with
  | error e =>
    rw [analyze_some_error features e hx] at hok
    exact Except.noConfusion hok
  | ok l =>
    by_cases hl : l = []
    · subst hl
      rw [analyze_some_empty features hx] at hok
      injection hok with h
      subst h
      exact absurd rfl hne
    · rw [analyze_some_nonempty features l hx hl] at hok
      injection hok with h
      subst h
      exact healthStatus_fst_spec (avgScore l)
        (_calculate_semantic_diversity (l.map RetrievedChunk.text))

/-- Witness for C1 at a one-chunk feature map. -/
theorem health_status_decision_table_witness :
    analyze_retrieved_context (some [(("chunk_1_text"), Value.str ("alpha")),
        (("chunk_1_score"), Value.num 1)]) = Except.ok wRes1 ∧
    wRes1.retrieved_chunks ≠ [] ∧
    ((wRes1.health_report.status = ("CRITICAL") ↔
        wRes1.health_report.avg_relevance_score < 0.60) ∧
      (wRes1.health_report.status = ("WARNING") ↔
        ((0.60 ≤ wRes1.health_report.avg_relevance_score ∧
            wRes1.health_report.avg_relevance_score < 0.75) ∨
          (0.75 ≤ wRes1.health_report.avg_relevance_score ∧
            wRes1.health_report.semantic_diversity_score < 0.80))) ∧
      (wRes1.health_report.status = ("HEALTHY") ↔
        (0.75 ≤ wRes1.health_report.avg_relevance_score ∧
          0.80 ≤ wRes1.health_report.semantic_diversity_score))) :=
  ⟨rfl, by decide,
    health_status_decision_table [(("chunk_1_text"), Value.str ("alpha")),
      (("chunk_1_score"), Value.num 1)] wRes1 rfl (by decide)⟩

/-- The value-guard filters out every partner when all texts are equal. -/
theorem filter_ne_eq_nil (t0 : String) (texts : List String)
    (hall : ∀ t ∈ texts, t = t0) (t : String) (ht : t ∈ texts) :
    texts.filter (fun o => t != o) = [] := by
  rw [List.filter_eq_nil_iff]
  intro a ha
  rw [hall t ht, hall a ha]
  simp

/-- With all texts equal, the nested containment loop counts nothing. -/
theorem repeatedPhrases_all_eq (t0 : String) (texts : List String)
    (hall : ∀ t ∈ texts, t = t0) : repeatedPhrases texts = 0 := by
  unfold repeatedPhrases
  apply List.sum_eq_zero
  intro x hx
  rw [List.mem_map] at hx
  obtain ⟨t, ht, rfl⟩ := hx
  rw [filter_ne_eq_nil t0 texts hall t ht]
  rfl

/-- With all texts equal, the Jaccard accumulation sums nothing. -/
theorem phraseSimilarityTotal_all_eq (t0 : String) (texts : List String)
    (hall : ∀ t ∈ texts, t = t0) : phraseSimilarityTotal texts = 0 := by
  unfold phraseSimilarityTotal
  apply List.sum_eq_zero
  intro x hx
  rw [List.mem_map] at hx
  obtain ⟨t, ht, rfl⟩ := hx
  rw [filter_ne_eq_nil t0 texts hall t ht]
  rfl

/-- With all texts equal (and at least two of them), the diversity score
collapses to the word-diversity term plus the full 0.7 phrase weight. -/
theorem diversity_all_eq (t0 : String) (texts : List String) (h2 : 2 ≤ texts.length)
    (hall : ∀ t ∈ texts, t = t0) :
    _calculate_semantic_diversity texts =
      ((allWords texts).card : ℚ) / ((max (totalWords texts) 1 : ℕ) : ℚ) * 0.3 + 0.7 := by
  have hn2 : ¬ texts.length < 2 := by omega
  have hmp : 0 < texts.length * (texts.length - 1) := Nat.mul_pos (by omega) (by omega)
  simp only [_calculate_semantic_diversity, if_neg hn2, if_pos hmp,
    repeatedPhrases_all_eq t0 texts hall, phraseSimilarityTotal_all_eq t0 texts hall,
    Nat.cast_zero, zero_div, sub_zero, max_self, mul_one]
  rw [max_eq_right (zero_le_one), one_mul]

/-- Uniqueness characterization of the binary logarithm used by the
rounding model. -/
theorem int_log_eq_of (a : ℚ) (ha : 0 < a) (e : ℤ)
    (h1 : (2:ℚ)^e ≤ a) (h2 : a < (2:ℚ)^(e+1)) : Int.log 2 a = e := by
  have hb : 1 < 2 := one_lt_two
  have l1 : ((2:ℕ):ℚ)^(Int.log 2 a) ≤ a := Int.zpow_log_le_self hb ha
  have l2 : a < ((2:ℕ):ℚ)^(Int.log 2 a + 1) := Int.lt_zpow_succ_log_self hb a
  rw [show ((2:ℕ):ℚ) = 2 from by norm_num] at l1 l2
  by_contra hne
  rcases lt_or_gt_of_ne hne with hlt | hgt
  · have hc : (2:ℚ)^(Int.log 2 a + 1) ≤ (2:ℚ)^e :=
      zpow_le_zpow_right₀ (by norm_num) (by omega)
    linarith
  · have hc : (2:ℚ)^(e+1) ≤ (2:ℚ)^(Int.log 2 a) :=
      zpow_le_zpow_right₀ (by norm_num) (by omega)
    linarith

/-- Evaluates `roundPos` when the scaled significand rounds down. -/
theorem roundPos_round_down (a : ℚ) (ha : 0 < a) (e fl : ℤ)
    (h1 : (2:ℚ)^e ≤ a) (h2 : a < (2:ℚ)^(e+1))
    (hfl1 : (fl:ℚ) ≤ a * (2:ℚ)^(52 - e)) (hfl2 : a * (2:ℚ)^(52 - e) < (fl:ℚ) + 1/2) :
    roundPos a = (fl:ℚ) * (2:ℚ)^(e - 52) := by
  have hlog : Int.log 2 a = e := int_log_eq_of a ha e h1 h2
  have hfloor : ⌊a * (2:ℚ)^(52 - e)⌋ = fl := Int.floor_eq_iff.mpr ⟨hfl1, by linarith⟩
  simp only [roundPos]
  rw [hlog, show -(e - 52) = 52 - e from by ring, hfloor,
    if_pos (show a * (2:ℚ)^(52 - e) - (fl:ℚ) < 1/2 from by linarith)]

/-- Evaluates `roundPos` when the scaled significand rounds up. -/
theorem roundPos_round_up (a : ℚ) (ha : 0 < a) (e fl : ℤ)
    (h1 : (2:ℚ)^e ≤ a) (h2 : a < (2:ℚ)^(e+1))
    (hfl1 : (fl:ℚ) + 1/2 < a * (2:ℚ)^(52 - e)) (hfl2 : a * (2:ℚ)^(52 - e) < (fl:ℚ) + 1) :
    roundPos a = ((fl + 1 : ℤ):ℚ) * (2:ℚ)^(e - 52) := by
  have hlog : Int.log 2 a = e := int_log_eq_of a ha e h1 h2
  have hfloor : ⌊a * (2:ℚ)^(52 - e)⌋ = fl :=
    Int.floor_eq_iff.mpr ⟨by linarith, by linarith⟩
  simp only [roundPos]
  rw [hlog, show -(e - 52) = 52 - e from by ring, hfloor,
    if_neg (show ¬(a * (2:ℚ)^(52 - e) - (fl:ℚ) < 1/2) from by linarith),
    if_pos (show (1:ℚ)/2 < a * (2:ℚ)^(52 - e) - (fl:ℚ) from by linarith)]

/-- A positive argument takes the `roundPos` branch. -/
theorem roundDouble_of_pos (q : ℚ) (h : 0 < q) : roundDouble q = roundPos q := by
  unfold roundDouble
  rw [if_neg (ne_of_gt h), if_neg (not_lt.mpr h.le)]

/-- Zero is exactly representable. -/
theorem roundDouble_zero : roundDouble (0 : ℚ) = 0 := by
  unfold roundDouble
  rw [if_pos rfl]

/-- One is exactly representable. -/
theorem roundDouble_one : roundDouble (1 : ℚ) = 1 := by
  rw [roundDouble_of_pos _ (by norm_num),
    roundPos_round_down 1 (by norm_num) 0 4503599627370496
      (by norm_num) (by norm_num) (by norm_num) (by norm_num)]
  norm_num

/-- The double nearest 1/3 (the float value of `2/6`). -/
theorem roundDouble_third : roundDouble ((1:ℚ)/3) = 6004799503160661 / 2^54 := by
  rw [roundDouble_of_pos _ (by norm_num),
    roundPos_round_down ((1:ℚ)/3) (by norm_num) (-2) 6004799503160661
      (by norm_num) (by norm_num) (by norm_num) (by norm_num)]
  norm_num

/-- The double denoted by the literal `0.3`. -/
theorem roundDouble_c03 : roundDouble (0.3 : ℚ) = 5404319552844595 / 2^54 := by
  rw [roundDouble_of_pos _ (by norm_num),
    roundPos_round_down (0.3 : ℚ) (by norm_num) (-2) 5404319552844595
      (by norm_num) (by norm_num) (by norm_num) (by norm_num)]
  norm_num

/-- The double denoted by the literal `0.7`. -/
theorem roundDouble_c07 : roundDouble (0.7 : ℚ) = 6305039478318694 / 2^53 := by
  rw [roundDouble_of_pos _ (by norm_num),
    roundPos_round_down (0.7 : ℚ) (by norm_num) (-1) 6305039478318694
      (by norm_num) (by norm_num) (by norm_num) (by norm_num)]
  norm_num

/-- The double denoted by the threshold literal `0.80` (strictly above
4/5: the tie-free significand rounds up). -/
theorem roundDouble_c08 : roundDouble (0.80 : ℚ) = 7205759403792794 / 2^53 := by
  rw [roundDouble_of_pos _ (by norm_num),
    roundPos_round_up (0.80 : ℚ) (by norm_num) (-1) 7205759403792793
      (by norm_num) (by norm_num) (by norm_num) (by norm_num)]
  norm_num

/-- The double of `0.7` is exactly representable (fixed point of
rounding), as needed for `1.0 * 0.7`. -/
theorem roundDouble_c07_fixed :
    roundDouble ((6305039478318694 : ℚ) / 2^53) = 6305039478318694 / 2^53 := by
  rw [roundDouble_of_pos _ (by norm_num),
    roundPos_round_down ((6305039478318694 : ℚ) / 2^53) (by norm_num) (-1) 6305039478318694
      (by norm_num) (by norm_num) (by norm_num) (by norm_num)]
  norm_num

/-- Rounding of the product `double(1/3) * double(0.3)`: the exact
product lies above the midpoint, so the significand rounds up, giving
the double printed as 0.09999999999999999. -/
theorem roundDouble_prod :
    roundDouble (6004799503160661 / 2^54 * (5404319552844595 / 2^54) : ℚ)
      = 7205759403792793 / 2^56 := by
  rw [roundDouble_of_pos _ (by norm_num),
    roundPos_round_up (6004799503160661 / 2^54 * (5404319552844595 / 2^54) : ℚ)
      (by norm_num) (-4) 7205759403792792
      (by norm_num) (by norm_num) (by norm_num) (by norm_num)]
  norm_num

/-- Rounding of the final sum `double(0.1-ish) + double(0.7)`: the exact
sum lies below the midpoint, so the significand rounds down, giving the
double printed as 0.7999999999999999 - strictly below 0.80. -/
theorem roundDouble_final :
    roundDouble (7205759403792793 / 2^56 + 6305039478318694 / 2^53 : ℚ)
      = 7205759403792793 / 2^53 := by
  rw [roundDouble_of_pos _ (by norm_num),
    roundPos_round_down (7205759403792793 / 2^56 + 6305039478318694 / 2^53 : ℚ)
      (by norm_num) (-1) 7205759403792793
      (by norm_num) (by norm_num) (by norm_num) (by norm_num)]
  norm_num

/-- A fold that leaves the accumulator unchanged on every element of the
list computes the identity. -/
theorem foldl_const_of_mem {α β : Type} : ∀ (l : List α) (F : β → α → β),
    (∀ b a, a ∈ l → F b a = b) → ∀ b, l.foldl F b = b := by
  intro l
  induction l with
  | nil => intro F h b; rfl
  | cons x xs ih =>
    intro F h b
    rw [List.foldl_cons, h b x (by simp)]
    exact ih F (fun b a ha => h b a (by simp [ha])) b

/-- With all texts equal, the float similarity accumulation also sums
nothing (the value guard skips every pair before any float operation). -/
theorem phraseSimilarityTotal_f64_all_eq (t0 : String) (texts : List String)
    (hall : ∀ t ∈ texts, t = t0) : phraseSimilarityTotal_f64 texts = 0 := by
  unfold phraseSimilarityTotal_f64
  apply foldl_const_of_mem
  intro b t ht
  rw [filter_ne_eq_nil t0 texts hall t ht]
  rfl

/-- The program's IEEE-754 double value of the diversity score at three
identical copies of a text with at least one word and no repeated words:
exactly `double(double(1/3) * 0.3) + 0.7` = 0.7999999999999999, one unit
in the last place BELOW the exact 4/5. -/
theorem f64_triple_identical (t0 : String) (hnd : (chunkWords t0).Nodup)
    (hpos : 0 < (chunkWords t0).length) :
    _calculate_semantic_diversity_f64 [t0, t0, t0] = 7205759403792793 / 2^53 := by
  have hall : ∀ t ∈ ([t0, t0, t0] : List String), t = t0 := by
    intro t ht
    simp only [List.mem_cons, List.not_mem_nil, or_false] at ht
    rcases ht with h | h | h <;> exact h
  have hA : allWords [t0, t0, t0] = wordSet t0 := by
    show (∅ ∪ wordSet t0) ∪ wordSet t0 ∪ wordSet t0 = wordSet t0
    simp
  have hT : totalWords [t0, t0, t0] = 3 * (chunkWords t0).length := by
    show (chunkWords t0).length + ((chunkWords t0).length + ((chunkWords t0).length + 0))
      = 3 * (chunkWords t0).length
    ring
  have hcard : (wordSet t0).card = (chunkWords t0).length := List.toFinset_card_of_nodup hnd
  have hn2 : ¬ ([t0, t0, t0] : List String).length < 2 := by simp
  have hmp : 0 < ([t0, t0, t0] : List String).length
      * (([t0, t0, t0] : List String).length - 1) := by simp
  have hL0 : ((chunkWords t0).length : ℚ) ≠ 0 := Nat.cast_ne_zero.mpr (by omega)
  have hwd : fdiv ((chunkWords t0).length : ℚ)
      ((max (3 * (chunkWords t0).length) 1 : ℕ) : ℚ) = 6004799503160661 / 2^54 := by
    rw [show (max (3 * (chunkWords t0).length) 1 : ℕ) = 3 * (chunkWords t0).length
        from max_eq_left (by omega)]
    unfold fdiv
    rw [show ((chunkWords t0).length : ℚ) / ((3 * (chunkWords t0).length : ℕ) : ℚ)
        = (1:ℚ)/3 from by push_cast; field_simp; ring]
    exact roundDouble_third
  have hsim : fdiv (phraseSimilarityTotal_f64 [t0, t0, t0])
      ((([t0, t0, t0] : List String).length
        * (([t0, t0, t0] : List String).length - 1) : ℕ) : ℚ) = 0 := by
    rw [phraseSimilarityTotal_f64_all_eq t0 _ hall]
    unfold fdiv
    rw [zero_div, roundDouble_zero]
  have hpen : max 0 (fdiv (((0:ℕ)) : ℚ)
      ((max (([t0, t0, t0] : List String).length
        * (([t0, t0, t0] : List String).length - 1)) 1 : ℕ) : ℚ)) = 0 := by
    unfold fdiv
    rw [Nat.cast_zero, zero_div, roundDouble_zero, max_self]
  have hfsub : fsub 1 (0:ℚ) = 1 := by
    unfold fsub
    rw [sub_zero, roundDouble_one]
  have hfmul1 : fmul (1:ℚ) 1 = 1 := by
    unfold fmul
    rw [mul_one, roundDouble_one]
  have ht1 : fmul (6004799503160661 / 2^54 : ℚ) (roundDouble 0.3)
      = 7205759403792793 / 2^56 := by
    rw [roundDouble_c03]
    unfold fmul
    exact roundDouble_prod
  have ht2 : fmul (1:ℚ) (roundDouble 0.7) = 6305039478318694 / 2^53 := by
    rw [roundDouble_c07]
    unfold fmul
    rw [one_mul]
    exact roundDouble_c07_fixed
  have hfin : fadd (7205759403792793 / 2^56 : ℚ) (6305039478318694 / 2^53)
      = 7205759403792793 / 2^53 := by
    unfold fadd
    exact roundDouble_final
  simp only [_calculate_semantic_diversity_f64]
  rw [if_neg hn2, if_pos hmp, hA, hcard, hT,
    repeatedPhrases_all_eq t0 _ hall, hsim, hpen, hfsub,
    max_eq_right (zero_le_one), hfmul1, hwd, ht1, ht2, hfin]

/-- C10 counterexample: under the program's IEEE-754 double arithmetic,
three identical copies of the two-word text "a b" (no repeated words)
give diversity 0.7999999999999999 = 7205759403792793/2^53, which is NOT
0.8 and IS strictly below the 0.80 low-diversity threshold (both the
exact threshold and its double rounding), so the claimed
"equals 0.8, does not fall below the threshold" is false of the code. -/
theorem identical_texts_threshold_counterexample :
    (chunkWords ("a b")).Nodup ∧ 0 < (chunkWords ("a b")).length ∧
    _calculate_semantic_diversity_f64 [("a b"), ("a b"), ("a b")]
      = 7205759403792793 / 2^53 ∧
    ¬ _calculate_semantic_diversity_f64 [("a b"), ("a b"), ("a b")] = 0.8 ∧
    _calculate_semantic_diversity_f64 [("a b"), ("a b"), ("a b")] < 0.80 ∧
    _calculate_semantic_diversity_f64 [("a b"), ("a b"), ("a b")] < roundDouble 0.80 := by
  have hval := f64_triple_identical ("a b") (by decide) (by decide)
  refine ⟨by decide, by decide, hval, ?_, ?_, ?_⟩
  · rw [hval]
    norm_num
  · rw [hval]
    norm_num
  · rw [hval, roundDouble_c08]
    norm_num

/-- C10 (amended): for n >= 2 equal texts the pairwise loop compares no
pairs (the guard skips value-equal pairs, not just same positions), so
the repeated-phrase count and similarity total are 0 and the score in
exact arithmetic is 0.3 * (distinct words / total words) + 0.7, hence at
least 0.7; for three identical copies of a text with at least one word
and no internally repeated words the exact value is 0.8, but the
program's IEEE-754 double evaluation gives 0.7999999999999999
= 7205759403792793/2^53, which DOES fall strictly below the 0.80
low-diversity threshold. -/
theorem identical_texts_diversity (t0 : String) (texts : List String)
    (h2 : 2 ≤ texts.length) (hall : ∀ t ∈ texts, t = t0) :
    repeatedPhrases texts = 0 ∧
    phraseSimilarityTotal texts = 0 ∧
    _calculate_semantic_diversity texts =
      ((allWords texts).card : ℚ) / ((max (totalWords texts) 1 : ℕ) : ℚ) * 0.3 + 0.7 ∧
    0.7 ≤ _calculate_semantic_diversity texts ∧
    (texts = [t0, t0, t0] → (chunkWords t0).Nodup → 0 < (chunkWords t0).length →
      _calculate_semantic_diversity texts = 0.8 ∧
      _calculate_semantic_diversity_f64 texts = 7205759403792793 / 2^53 ∧
      _calculate_semantic_diversity_f64 texts < 0.80 ∧
      _calculate_semantic_diversity_f64 texts < roundDouble 0.80) := by
  have hdiv := diversity_all_eq t0 texts h2 hall
  have hwd0 : (0:ℚ) ≤ ((allWords texts).card : ℚ) / ((max (totalWords texts) 1 : ℕ) : ℚ) := by
    positivity
  refine ⟨repeatedPhrases_all_eq t0 texts hall, phraseSimilarityTotal_all_eq t0 texts hall,
    hdiv, by rw [hdiv]; nlinarith, ?_⟩
  intro heq hnd hpos
  subst heq
  have hA : allWords [t0, t0, t0] = wordSet t0 := by
    show (∅ ∪ wordSet t0) ∪ wordSet t0 ∪ wordSet t0 = wordSet t0
    simp
  have hT : totalWords [t0, t0, t0] = 3 * (chunkWords t0).length := by
    show (chunkWords t0).length + ((chunkWords t0).length + ((chunkWords t0).length + 0))
      = 3 * (chunkWords t0).length
    ring
  have hcard : (wordSet t0).card = (chunkWords t0).length := List.toFinset_card_of_nodup hnd
  have hval : _calculate_semantic_diversity [t0, t0, t0] = 0.8 := by
    rw [hdiv, hA, hcard, hT, max_eq_left (by omega)]
    have hL : ((chunkWords t0).length : ℚ) ≠ 0 := Nat.cast_ne_zero.mpr (by omega)
    rw [show (0.3 : ℚ) = 3/10 by norm_num, show (0.8 : ℚ) = 4/5 by norm_num,
      show (0.7 : ℚ) = 7/10 by norm_num]
    push_cast
    field_simp
    ring
  have hF := f64_triple_identical t0 hnd hpos
  refine ⟨hval, hF, ?_, ?_⟩
  · rw [hF]
    norm_num
  · rw [hF, roundDouble_c08]
    norm_num

/-- Witness for C10 (amended) at three copies of a two-word text. -/
theorem identical_texts_diversity_witness :
    (2 ≤ ([("a b"), ("a b"), ("a b")] : List String).length) ∧
    (∀ t ∈ ([("a b"), ("a b"), ("a b")] : List String), t = ("a b")) ∧
    (_calculate_semantic_diversity [("a b"), ("a b"), ("a b")] = 0.8 ∧
      _calculate_semantic_diversity_f64 [("a b"), ("a b"), ("a b")] = 7205759403792793 / 2^53 ∧
      _calculate_semantic_diversity_f64 [("a b"), ("a b"), ("a b")] < 0.80 ∧
      _calculate_semantic_diversity_f64 [("a b"), ("a b"), ("a b")] < roundDouble 0.80) :=
  ⟨by decide, by decide,
    (identical_texts_diversity ("a b") [("a b"), ("a b"), ("a b")] (by decide)
      (by decide)).2.2.2.2 rfl (by decide) (by decide)⟩

/-- Any map over texts can be re-indexed over positions. -/
theorem list_map_over_get {β : Type} (l : List String) (f : String → β) :
    l.map f = (List.finRange l.length).map (fun i => f (l.get i)) := by
  conv_lhs => rw [← List.finRange_map_get l]
  rw [List.map_map]
  rfl

/-- Any filter over texts can be re-indexed over positions. -/
theorem list_filter_over_get (l : List String) (p : String → Bool) :
    l.filter p = ((List.finRange l.length).filter (fun i => p (l.get i))).map l.get := by
  conv_lhs => rw [← List.finRange_map_get l]
  rw [List.filter_map]
  rfl

/-- The value-level containment loop equals its position-pair form with
the string-inequality guard. -/
theorem repeatedPhrases_positions (texts : List String) :
    repeatedPhrases texts = posPairRepeated texts := by
  unfold repeatedPhrases posPairRepeated
  rw [list_map_over_get texts]
  simp only [list_filter_over_get texts, List.filter_map, List.length_map]
  rfl

/-- The value-level Jaccard loop equals its position-pair form with the
string-inequality guard. -/
theorem phraseSimilarityTotal_positions (texts : List String) :
    phraseSimilarityTotal texts = posPairSimilarity texts := by
  unfold phraseSimilarityTotal posPairSimilarity
  rw [list_map_over_get texts]
  simp only [list_filter_over_get texts, List.map_map]
  rfl

/-- C2 counterexample: at two equal one-word texts the code counts no
pairs (the guard compares strings, skipping equal-string pairs at
different positions), while the claimed all-ordered-position-pairs
accumulation counts both pairs; the resulting scores differ (17/20
versus 3/20), so the claim as stated is false. -/
theorem ordered_position_pairs_counterexample :
    repeatedPhrases [("a"), ("a")] = 0 ∧
    claimPairRepeated [("a"), ("a")] = 2 ∧
    phraseSimilarityTotal [("a"), ("a")] = 0 ∧
    claimPairSimilarity [("a"), ("a")] = 2 ∧
    _calculate_semantic_diversity [("a"), ("a")] = 17/20 ∧
    claimPairwiseDiversity [("a"), ("a")] = 3/20 ∧
    ¬ claimPairwiseDiversity [("a"), ("a")] = _calculate_semantic_diversity [("a"), ("a")] := by
  have hall : ∀ t ∈ ([("a"), ("a")] : List String), t = ("a") := by decide
  have h2 : 2 ≤ ([("a"), ("a")] : List String).length := by decide
  have hA : allWords [("a"), ("a")] = wordSet ("a") := by
    show (∅ ∪ wordSet ("a")) ∪ wordSet ("a") = wordSet ("a")
    simp
  have hdiv : _calculate_semantic_diversity [("a"), ("a")] = 17/20 := by
    rw [diversity_all_eq ("a") _ h2 hall, hA,
      show (wordSet ("a")).card = 1 by decide,
      show totalWords [("a"), ("a")] = 2 by decide]
    norm_num
  have hjs : jaccard ("a") ("a") = 1 := by
    rw [show jaccard ("a") ("a") = ((1:ℕ) : ℚ) / ((1:ℕ) : ℚ) from rfl]
    norm_num
  have hcs : claimPairSimilarity [("a"), ("a")] = 2 := by
    rw [show claimPairSimilarity [("a"), ("a")]
        = (jaccard ("a") ("a") + 0) + ((jaccard ("a") ("a") + 0) + 0) from rfl, hjs]
    norm_num
  have hcd : claimPairwiseDiversity [("a"), ("a")] = 3/20 := by
    rw [show claimPairwiseDiversity [("a"), ("a")] =
        ((1:ℕ):ℚ)/((2:ℕ):ℚ) * 0.3 +
        ((max 0 (1 - claimPairSimilarity [("a"), ("a")] / ((2:ℕ):ℚ))) *
          (1 - max 0 (((2:ℕ):ℚ) / ((2:ℕ):ℚ)))) * 0.7 from rfl, hcs]
    norm_num [max_eq_right]
  refine ⟨repeatedPhrases_all_eq ("a") _ hall, by decide,
    phraseSimilarityTotal_all_eq ("a") _ hall, hcs, hdiv, hcd, ?_⟩
  rw [hcd, hdiv]
  norm_num

/-- C2 (amended): the containment and Jaccard accumulations run over all
ordered pairs of positions whose texts DIFFER as strings (self-pairs and
equal-string pairs excluded, each unordered pair of distinct texts
counted twice), normalized by n*(n-1). -/
theorem pairwise_accumulation_value_guarded (texts : List String) :
    repeatedPhrases texts = posPairRepeated texts ∧
    phraseSimilarityTotal texts = posPairSimilarity texts ∧
    _calculate_semantic_diversity texts = valueGuardedPairDiversity texts := by
  refine ⟨repeatedPhrases_positions texts, phraseSimilarityTotal_positions texts, ?_⟩
  unfold _calculate_semantic_diversity valueGuardedPairDiversity
  rw [repeatedPhrases_positions texts, phraseSimilarityTotal_positions texts]

/-- On non-null values of the spec data model, `float()` never raises
`TypeError` (at worst `ValueError`, which the extractor catches). -/
theorem pyFloat_no_typeError (v : Value) (hv : wellTypedValue v = true)
    (hnn : v ≠ Value.null) : pyFloat v ≠ Except.error PyErr.typeError := by
  cases v with
  | str s => cases hp : parseFloat s <;> simp [pyFloat, hp]
  | num q => simp [pyFloat]
  | bool b => simp [pyFloat]
  | null => exact absurd rfl hnn
  | other t => simp [wellTypedValue] at hv

/-- One key/value step never raises when the value is of a data-model
type. -/
theorem stepKey_ok (m : ChunkMap) (k : String) (v : Value)
    (hv : wellTypedValue v = true) : ∃ m2, stepKey m k v = Except.ok m2 := by
  unfold stepKey
  dsimp only []
  repeat' split
  all_goals first
    | exact ⟨_, rfl⟩
    | exact absurd (by assumption : pyFloat v = Except.error PyErr.typeError)
        (pyFloat_no_typeError v hv (by assumption))

/-- The whole scan never raises when every value is of a data-model type,
from any starting working dict. -/
theorem foldChunks_ok (features : List (String × Value)) :
    (∀ kv ∈ features, wellTypedValue kv.2 = true) → ∀ m0 : ChunkMap,
    ∃ m, List.foldlM (fun m kv => stepKey m kv.1 kv.2) m0 features = Except.ok m := by
  induction features with
  | nil => exact fun _ m0 => ⟨m0, rfl⟩
  | cons kv rest ih =>
    intro h m0
    obtain ⟨m1, h1⟩ := stepKey_ok m0 kv.1 kv.2 (h kv (by simp))
    obtain ⟨m2, h2⟩ := ih (fun x hx => h x (by simp [hx])) m1
    refine ⟨m2, ?_⟩
    rw [List.foldlM_cons, h1]
    exact h2

/-- Extraction succeeds on every feature map with data-model values. -/
theorem extract_ok_of_wellTyped (features : List (String × Value))
    (h : ∀ kv ∈ features, wellTypedValue kv.2 = true) :
    ∃ l, _extract_chunks features = Except.ok l := by
  obtain ⟨m, hm⟩ := foldChunks_ok features h []
  refine ⟨(sortByKey m).filterMap completeChunk, ?_⟩
  unfold _extract_chunks buildChunks
  rw [hm]
  rfl

/-- C3 (amended): for every feature map whose values are strings,
numbers, booleans, or nulls (the spec data model), chunk extraction and
the top-level analysis never raise: unparsable keys or values are
skipped and malformed input only yields fewer chunks.  (A value outside
the data model, e.g. a list, in a score field raises an uncaught
TypeError from float(); see the counterexample.) -/
theorem extraction_never_raises_on_datamodel_values (features : List (String × Value))
    (h : ∀ kv ∈ features, wellTypedValue kv.2 = true) :
    (∃ l, _extract_chunks features = Except.ok l) ∧
    (∃ r, analyze_retrieved_context (some features) = Except.ok r) := by
  obtain ⟨l, hl⟩ := extract_ok_of_wellTyped features h
  refine ⟨⟨l, hl⟩, ?_⟩
  by_cases hnil : l = []
  · subst hnil
    exact ⟨_, analyze_some_empty features hl⟩
  · exact ⟨_, analyze_some_nonempty features l hl hnil⟩

/-- C3 counterexample: a list-typed value in a score field raises an
uncaught TypeError out of both extraction and analysis, so "never raises
whatever the types of the values" is false as stated. -/
theorem extraction_typeerror_counterexample :
    _extract_chunks [(("chunk_1_score"), Value.other ("a list"))]
        = Except.error PyErr.typeError ∧
    analyze_retrieved_context (some [(("chunk_1_score"), Value.other ("a list"))])
        = Except.error PyErr.typeError :=
  ⟨by decide, by decide⟩

/-- Witness for C3 (amended): a map with a well-formed chunk, an
unparsable string score, and a boolean score with no paired text. -/
theorem extraction_never_raises_on_datamodel_values_witness :
    (∀ kv ∈ [(("chunk_1_text"), Value.str ("x")), (("chunk_1_score"), Value.str ("oops")),
        (("chunk_2_score"), Value.bool true)], wellTypedValue kv.2 = true) ∧
    ((∃ l, _extract_chunks [(("chunk_1_text"), Value.str ("x")),
        (("chunk_1_score"), Value.str ("oops")), (("chunk_2_score"), Value.bool true)]
        = Except.ok l) ∧
      (∃ r, analyze_retrieved_context (some [(("chunk_1_text"), Value.str ("x")),
        (("chunk_1_score"), Value.str ("oops")), (("chunk_2_score"), Value.bool true)])
        = Except.ok r)) :=
  ⟨by decide, extraction_never_raises_on_datamodel_values _ (by decide)⟩

/-- Lookup misses exactly the keys not in the dict. -/
theorem mapLookup_none_iff (m : ChunkMap) (k : ℤ) :
    mapLookup m k = none ↔ k ∉ m.map Prod.fst := by
  induction m with
  | nil => simp [mapLookup]
  | cons kv rest ih =>
    obtain ⟨k2, v2⟩ := kv
    by_cases h : k2 = k
    · subst h
      simp [mapLookup, List.find?_cons]
    · have hstep : mapLookup ((k2, v2) :: rest) k = mapLookup rest k := by
        simp [mapLookup, List.find?_cons, h]
      rw [hstep, ih]
      simp [Ne.symm h]

/-- Assignment to a present key keeps the key list unchanged. -/
theorem mapSet_keys_mem (m : ChunkMap) (k : ℤ) (v : PartialChunk)
    (h : k ∈ m.map Prod.fst) :
    (mapSet m k v).map Prod.fst = m.map Prod.fst := by
  induction m with
  | nil => simp at h
  | cons kv rest ih =>
    obtain ⟨k2, v2⟩ := kv
    by_cases hek : k2 = k
    · subst hek
      simp [mapSet]
    · simp only [List.map_cons, List.mem_cons] at h
      rcases h with h | h

      · exact absurd h.symm hek
      · simp [mapSet, hek, ih h]

/-- Assignment to an absent key appends it. -/
theorem mapSet_keys_notmem (m : ChunkMap) (k : ℤ) (v : PartialChunk)
    (h : k ∉ m.map Prod.fst) :
    (mapSet m k v).map Prod.fst = m.map Prod.fst ++ [k] := by
  induction m with
  | nil => simp [mapSet]
  | cons kv rest ih =>
    obtain ⟨k2, v2⟩ := kv
    simp only [List.map_cons, List.mem_cons] at h
    push_neg at h
    simp [mapSet, Ne.symm h.1, ih h.2]

/-- Dict assignment preserves distinctness of keys. -/
theorem mapSet_keys_nodup (m : ChunkMap) (k : ℤ) (v : PartialChunk)
    (h : (m.map Prod.fst).Nodup) : ((mapSet m k v).map Prod.fst).Nodup := by
  by_cases hm : k ∈ m.map Prod.fst
  · rw [mapSet_keys_mem m k v hm]
    exact h
  · rw [mapSet_keys_notmem m k v hm]
    simp [List.nodup_append, h, hm]

/-- One extraction step preserves distinctness of the ordinal keys. -/
theorem stepKey_keys_nodup (m : ChunkMap) (k : String) (v : Value) (m2 : ChunkMap)
    (h : stepKey m k v = Except.ok m2) (hn : (m.map Prod.fst).Nodup) :
    (m2.map Prod.fst).Nodup := by
  unfold stepKey at h
  dsimp only [] at h
  repeat' split at h
  all_goals first
    | exact Except.noConfusion h
    | (injection h with h2; subst h2;
       first
         | exact hn
         | exact mapSet_keys_nodup _ _ _ hn
         | exact mapSet_keys_nodup _ _ _ (mapSet_keys_nodup _ _ _ hn))

/-- The whole scan preserves distinctness of the ordinal keys. -/
theorem foldChunks_keys_nodup (features : List (String × Value)) :
    ∀ m0 m : ChunkMap,
    List.foldlM (fun m kv => stepKey m kv.1 kv.2) m0 features = Except.ok m →
    (m0.map Prod.fst).Nodup → (m.map Prod.fst).Nodup := by
  induction features with
  | nil =>
    intro m0 m h h0
    injection h with h2
    subst h2
    exact h0
  | cons kv rest ih =>
    intro m0 m h h0
    rw [List.foldlM_cons] at h
    cases h1 : stepKey m0 kv.1 kv.2 with
    | error e =>
      rw [h1] at h
      exact Except.noConfusion h
    | ok m1 =>
      rw [h1] at h
      exact ih m1 m h (stepKey_keys_nodup m0 kv.1 kv.2 m1 h1 h0)

/-- The working dict built by extraction has distinct ordinal keys. -/
theorem buildChunks_keys_nodup (features : List (String × Value)) (m : ChunkMap)
    (h : buildChunks features = Except.ok m) : (m.map Prod.fst).Nodup :=
  foldChunks_keys_nodup features [] m h (by simp)

/-- After sorting, the distinct ordinal keys are strictly increasing. -/
theorem sortByKey_keys_pairwise_lt (m : ChunkMap) (hn : (m.map Prod.fst).Nodup) :
    ((sortByKey m).map Prod.fst).Pairwise (· < ·) := by
  have hs : List.Sorted keyLE (sortByKey m) := List.sorted_insertionSort keyLE m
  have hle : ((sortByKey m).map Prod.fst).Pairwise (· ≤ ·) :=
    List.Pairwise.map Prod.fst (fun a b hab => hab) hs
  have hperm : ((sortByKey m).map Prod.fst).Perm (m.map Prod.fst) :=
    (List.perm_insertionSort keyLE m).map Prod.fst
  have hnd : ((sortByKey m).map Prod.fst).Nodup := hperm.nodup_iff.mpr hn
  exact (hle.and hnd).imp (fun hab => lt_of_le_of_ne hab.1 hab.2)

/-- C4: for every feature map (whose scan succeeds), extraction emits one
RetrievedChunk per ordinal whose working record has BOTH the text and the
score field populated and none for any other ordinal, in strictly
ascending numeric-ordinal order. -/
theorem extraction_complete_ordinals_sorted (features : List (String × Value)) (m : ChunkMap)
    (h : buildChunks features = Except.ok m) :
    _extract_chunks features = Except.ok ((sortByKey m).filterMap completeChunk) ∧
    ((sortByKey m).map Prod.fst).Pairwise (· < ·) ∧
    (∀ kd : ℤ × PartialChunk, (completeChunk kd).isSome ↔
      (kd.2.text.isSome ∧ kd.2.score.isSome)) := by
  refine ⟨?_, sortByKey_keys_pairwise_lt m (buildChunks_keys_nodup features m h), ?_⟩
  · unfold _extract_chunks
    rw [h]
    rfl
  · intro kd
    obtain ⟨k2, t, s⟩ := kd
    cases t <;> cases s <;> simp [completeChunk]

/-- Witness for C4: a map with a text-only ordinal 2 and a complete
ordinal 1, given out of order; ordinal 2 yields no chunk and the output
is sorted by ordinal. -/
theorem extraction_complete_ordinals_sorted_witness :
    buildChunks [(("chunk_2_text"), Value.str ("orphan")), (("chunk_1_text"), Value.str ("one")),
        (("chunk_1_score"), Value.num 1)] = Except.ok
      [((2 : ℤ), { text := some ("orphan"), score := none }),
        ((1 : ℤ), { text := some ("one"), score := some 1 })] ∧
    _extract_chunks [(("chunk_2_text"), Value.str ("orphan")),
        (("chunk_1_text"), Value.str ("one")), (("chunk_1_score"), Value.num 1)] = Except.ok
      ((sortByKey [((2 : ℤ), { text := some ("orphan"), score := none }),
          ((1 : ℤ), { text := some ("one"), score := some 1 })]).filterMap completeChunk) ∧
    ((sortByKey [((2 : ℤ), { text := some ("orphan"), score := none }),
        ((1 : ℤ), { text := some ("one"), score := some 1 })]).map Prod.fst).Pairwise (· < ·) ∧
    ((completeChunk ((2 : ℤ), { text := some ("orphan"), score := none })).isSome ↔
      ((some ("orphan") : Option String).isSome ∧ (none : Option ℚ).isSome)) ∧
    _extract_chunks [(("chunk_2_text"), Value.str ("orphan")),
        (("chunk_1_text"), Value.str ("one")), (("chunk_1_score"), Value.num 1)]
      = Except.ok [{ text := ("one"), score := 1 }] :=
  ⟨by decide,
    (extraction_complete_ordinals_sorted [(("chunk_2_text"), Value.str ("orphan")), (("chunk_1_text"), Value.str ("one")),
      (("chunk_1_score"), Value.num 1)]
      [((2 : ℤ), { text := some ("orphan"), score := none }),
        ((1 : ℤ), { text := some ("one"), score := some 1 })] (by decide)).1,
    (extraction_complete_ordinals_sorted [(("chunk_2_text"), Value.str ("orphan")), (("chunk_1_text"), Value.str ("one")),
      (("chunk_1_score"), Value.num 1)]
      [((2 : ℤ), { text := some ("orphan"), score := none }),
        ((1 : ℤ), { text := some ("one"), score := some 1 })] (by decide)).2.1,
    (extraction_complete_ordinals_sorted [(("chunk_2_text"), Value.str ("orphan")), (("chunk_1_text"), Value.str ("one")),
      (("chunk_1_score"), Value.num 1)]
      [((2 : ℤ), { text := some ("orphan"), score := none }),
        ((1 : ℤ), { text := some ("one"), score := some 1 })] (by decide)).2.2
      ((2 : ℤ), { text := some ("orphan"), score := none }),
    by decide⟩

/-- C9: in every AnalysisResult returned by analyze (null-input,
zero-chunk, and normal branches), chunk_count equals the length of
retrieved_chunks, and the retrieved chunks are the ordinal-sorted
complete records of the working dict (never reordered by score). -/
theorem analysis_result_count_and_order (ofv : Option (List (String × Value)))
    (r : AnalysisResult) (h : analyze_retrieved_context ofv = Except.ok r) :
    r.health_report.chunk_count = r.retrieved_chunks.length ∧
    (∀ (features : List (String × Value)) (m : ChunkMap), ofv = some features →
      buildChunks features = Except.ok m →
      (r.retrieved_chunks = (sortByKey m).filterMap completeChunk ∧
        ((sortByKey m).map Prod.fst).Pairwise (· < ·))) := by
  cases ofv with
  | none =>
    injection h with h2
    subst h2
    exact ⟨rfl, fun f m hf _ => Option.noConfusion hf⟩
  | some features =>
    cases hx : _extract_chunks features with
    | error e =>
      rw [analyze_some_error features e hx] at h
      exact Except.noConfusion h
    | ok l =>
      have hmain : ∀ m : ChunkMap, buildChunks features = Except.ok m →
          (l = (sortByKey m).filterMap completeChunk ∧
            ((sortByKey m).map Prod.fst).Pairwise (· < ·)) := by
        intro m hm
        have hfm : _extract_chunks features
            = Except.ok ((sortByKey m).filterMap completeChunk) := by
          unfold _extract_chunks
          rw [hm]
          rfl
        have hl : l = (sortByKey m).filterMap completeChunk := by
          injection hx.symm.trans hfm
        exact ⟨hl, sortByKey_keys_pairwise_lt m (buildChunks_keys_nodup features m hm)⟩
      by_cases hl : l = []
      · subst hl
        rw [analyze_some_empty features hx] at h
        injection h with h2
        subst h2
        exact ⟨rfl, fun f m hf hm => by
          injection hf with hf2
          subst hf2
          exact hmain m hm⟩
      · rw [analyze_some_nonempty features l hx hl] at h
        injection h with h2
        subst h2
        exact ⟨rfl, fun f m hf hm => by
          injection hf with hf2
          subst hf2
          exact hmain m hm⟩

/-- Witness for C9 at a two-chunk map whose ordinals arrive out of order
and whose scores are not score-sorted. -/
theorem analysis_result_count_and_order_witness :
    analyze_retrieved_context (some [(("chunk_2_text"), Value.str ("second")),
        (("chunk_2_score"), Value.num 2), (("chunk_1_text"), Value.str ("first")),
        (("chunk_1_score"), Value.num 1)]) = Except.ok wRes9 ∧
    wRes9.health_report.chunk_count = wRes9.retrieved_chunks.length ∧
    (wRes9.retrieved_chunks =
        (sortByKey [((2 : ℤ), { text := some ("second"), score := some 2 }),
          ((1 : ℤ), { text := some ("first"), score := some 1 })]).filterMap completeChunk ∧
      ((sortByKey [((2 : ℤ), { text := some ("second"), score := some 2 }),
          ((1 : ℤ), { text := some ("first"), score := some 1 })]).map Prod.fst).Pairwise
        (· < ·)) :=
  ⟨rfl,
    (analysis_result_count_and_order (some [(("chunk_2_text"), Value.str ("second")),
        (("chunk_2_score"), Value.num 2), (("chunk_1_text"), Value.str ("first")),
        (("chunk_1_score"), Value.num 1)]) wRes9 rfl).1,
    (analysis_result_count_and_order (some [(("chunk_2_text"), Value.str ("second")),
        (("chunk_2_score"), Value.num 2), (("chunk_1_text"), Value.str ("first")),
        (("chunk_1_score"), Value.num 1)]) wRes9 rfl).2 [(("chunk_2_text"), Value.str ("second")),
        (("chunk_2_score"), Value.num 2), (("chunk_1_text"), Value.str ("first")),
        (("chunk_1_score"), Value.num 1)]
      [((2 : ℤ), { text := some ("second"), score := some 2 }),
        ((1 : ℤ), { text := some ("first"), score := some 1 })] rfl (by decide)⟩

/-- Each pairwise Jaccard contribution is nonnegative. -/
theorem jaccard_nonneg (t o : String) : 0 ≤ jaccard t o := by
  unfold jaccard
  dsimp only []
  split
  · positivity
  · exact le_refl 0

/-- The accumulated similarity total is nonnegative. -/
theorem phraseSimilarityTotal_nonneg (texts : List String) :
    0 ≤ phraseSimilarityTotal texts := by
  unfold phraseSimilarityTotal
  apply List.sum_nonneg
  intro x hx
  rw [List.mem_map] at hx
  obtain ⟨t, _, rfl⟩ := hx
  apply List.sum_nonneg
  intro y hy
  rw [List.mem_map] at hy
  obtain ⟨o, _, rfl⟩ := hy
  exact jaccard_nonneg t o

/-- Folding unions of word sets grows the cardinality by at most the
total word count. -/
theorem allWords_aux (texts : List String) :
    ∀ s : Finset String,
      (List.foldl (fun s t => s ∪ wordSet t) s texts).card ≤ s.card + totalWords texts := by
  induction texts with
  | nil =>
    intro s
    simp [totalWords]
  | cons t ts ih =>
    intro s
    rw [List.foldl_cons]
    calc (List.foldl (fun s t => s ∪ wordSet t) (s ∪ wordSet t) ts).card
        ≤ (s ∪ wordSet t).card + totalWords ts := ih (s ∪ wordSet t)
      _ ≤ (s.card + (wordSet t).card) + totalWords ts := by
          have := Finset.card_union_le s (wordSet t)
          omega
      _ ≤ s.card + totalWords (t :: ts) := by
          have h1 : (wordSet t).card ≤ (chunkWords t).length := List.toFinset_card_le _
          have h2 : totalWords (t :: ts) = (chunkWords t).length + totalWords ts := by
            simp [totalWords]
          omega

/-- There are at most as many distinct words as words. -/
theorem allWords_card_le (texts : List String) :
    (allWords texts).card ≤ totalWords texts := by
  have h := allWords_aux texts ∅
  simpa [allWords] using h

/-- The containment counter counts at most n*(n-1) ordered pairs. -/
theorem repeatedPhrases_le (texts : List String) :
    repeatedPhrases texts ≤ texts.length * (texts.length - 1) := by
  unfold repeatedPhrases
  have hb : ∀ x ∈ texts.map (fun t =>
      ((texts.filter (fun o => t != o)).filter (fun o => containsEither t o)).length),
      x ≤ texts.length - 1 := by
    intro x hx
    rw [List.mem_map] at hx
    obtain ⟨t, ht, rfl⟩ := hx
    have h1 : ((texts.filter (fun o => t != o)).filter (fun o => containsEither t o)).length
        ≤ (texts.filter (fun o => t != o)).length := List.length_filter_le _ _
    have h2 : (texts.filter (fun o => t != o)).length < texts.length :=
      List.length_filter_lt_length_iff_exists.mpr ⟨t, ht, by simp⟩
    omega
  have h := List.sum_le_card_nsmul _ _ hb
  rw [List.length_map, smul_eq_mul] at h
  exact h

/-- Weighted 0.3/0.7 combination of three [0,1] quantities stays in
[0,1]. -/
theorem combine_bounds (w p q : ℚ) (hw0 : 0 ≤ w) (hw1 : w ≤ 1) (hp0 : 0 ≤ p)
    (hp1 : p ≤ 1) (hq0 : 0 ≤ q) (hq1 : q ≤ 1) :
    0 ≤ w * 0.3 + (p * (1 - q)) * 0.7 ∧ w * 0.3 + (p * (1 - q)) * 0.7 ≤ 1 := by
  constructor <;> nlinarith

/-- C8: for every list of texts the diversity score lies in [0,1]: the
word-diversity term is at most 1, the phrase-diversity term is clamped to
[0,1] and multiplied by a penalty factor in [0,1], and the 0.3/0.7
combination therefore stays in range without a final clamp. -/
theorem diversity_within_unit_interval (texts : List String) :
    0 ≤ _calculate_semantic_diversity texts ∧ _calculate_semantic_diversity texts ≤ 1 := by
  by_cases h : texts.length < 2
  · rw [diversity_lt_two texts h]
    norm_num
  · have hwd0 : (0:ℚ) ≤ ((allWords texts).card : ℚ) / ((max (totalWords texts) 1 : ℕ) : ℚ) := by
      positivity
    have hwd1 : ((allWords texts).card : ℚ) / ((max (totalWords texts) 1 : ℕ) : ℚ) ≤ 1 := by
      apply div_le_one_of_le₀
      · exact_mod_cast le_trans (allWords_card_le texts) (le_max_left _ 1)
      · positivity
    have hpd0 : (0:ℚ) ≤ (if 0 < texts.length * (texts.length - 1) then
        max 0 (1 - phraseSimilarityTotal texts / ((texts.length * (texts.length - 1) : ℕ) : ℚ))
        else 1) := by
      split
      · exact le_max_left 0 _
      · norm_num
    have hpd1 : (if 0 < texts.length * (texts.length - 1) then
        max 0 (1 - phraseSimilarityTotal texts / ((texts.length * (texts.length - 1) : ℕ) : ℚ))
        else 1) ≤ 1 := by
      split
      · apply max_le (by norm_num)
        have hd : (0:ℚ) ≤ phraseSimilarityTotal texts
            / ((texts.length * (texts.length - 1) : ℕ) : ℚ) := by
          have := phraseSimilarityTotal_nonneg texts
          positivity
        linarith
      · norm_num
    have hq0 : (0:ℚ) ≤ max 0 ((repeatedPhrases texts : ℚ)
        / ((max (texts.length * (texts.length - 1)) 1 : ℕ) : ℚ)) := le_max_left 0 _
    have hq1 : max 0 ((repeatedPhrases texts : ℚ)
        / ((max (texts.length * (texts.length - 1)) 1 : ℕ) : ℚ)) ≤ 1 := by
      apply max_le (by norm_num)
      apply div_le_one_of_le₀
      · exact_mod_cast le_trans (repeatedPhrases_le texts) (le_max_left _ 1)
      · positivity
    simp only [_calculate_semantic_diversity, if_neg h]
    exact combine_bounds _ _ _ hwd0 hwd1 hpd0 hpd1 hq0 hq1

end RagContextDebugger
